import Mathlib

/-!
Verification of the go-api-example banking service.

The development shallowly embeds the storage layer (`storage/postgres.go`)
and the transaction HTTP handler of this repository.

Monetary values: the Go code computes on `shopspring/decimal` values
(exact decimal arithmetic) and the schema stores balances as
`NUMERIC(19, 5)`, i.e. with five fractional digits, so the smallest
representable unit is 0.00001.  We model an exact decimal amount as the
integer number of `10 ^ (-5)` units it contains (e.g. 250.25 is the
integer 25025000); on such values decimal addition, subtraction and
comparison coincide exactly with integer addition, subtraction and
comparison, so `Int` is a faithful model of the monetary type for every
value the schema can store.

The database table `accounts` is modelled as a list of rows with the
primary-key invariant `uniqueIds` (no two rows share an `account_id`).
A transfer runs inside a transaction: every `return err` before
`tx.Commit` triggers the deferred `tx.Rollback`, so the database visible
to other transactions is unchanged; only a successful `Commit` publishes
the updated rows.  `ExecuteTransfer` therefore takes an explicit
failure schedule (`Option Step`, which database call fails, `none` for a
failure-free run, covering context cancellation as a failing call) and
returns both the reported result and the database state visible after
the call.
-/

deriving instance DecidableEq for Except

namespace model

/-- model.Account: a bank account row, an id and an exact decimal balance
(in units of 10 ^ (-5), see the file header). -/
structure Account where
  AccountID : Int
  Balance : Int
deriving DecidableEq

/-- model.TransactionRequest: the body of a transfer submission. -/
structure TransactionRequest where
  SourceAccountID : Int
  DestinationAccountID : Int
  Amount : Int
deriving DecidableEq

end model

namespace storage

/-- The accounts table: a list of rows. -/
abbrev Database := List model.Account

/-- Primary-key invariant of the accounts table: no two rows share an id. -/
def uniqueIds (st : Database) : Prop :=
  (st.map model.Account.AccountID).Nodup

instance (st : Database) : Decidable (uniqueIds st) := by
  unfold uniqueIds; infer_instance

/-- The database calls issued by ExecuteTransfer, in program order:
Begin, the locking SELECT, scanning its rows, the debit UPDATE, the
credit UPDATE, Commit.  Any of them can fail (connectivity, lock
timeout, or cancellation of the calling context). -/
inductive Step where
  | beginTx
  | lockQuery
  | scanRow
  | debitExec
  | creditExec
  | commitTx
deriving DecidableEq

/-- Errors surfaced by the storage layer: the sentinels ErrNotFound and
ErrInsufficientFunds, and wrapped database failures (fmt.Errorf) tagged
with the step that failed. -/
inductive StoreError where
  | notFound
  | insufficientFunds
  | storeFailure (s : Step)
deriving DecidableEq

/-- CreateAccount: INSERT ... ON CONFLICT (account_id) DO NOTHING.
If a row with the same id exists the statement inserts nothing;
otherwise the new row is added. -/
def CreateAccount (st : Database) (acc : model.Account) : Database :=
  if st.any (fun row => row.AccountID == acc.AccountID) then st
  else st ++ [acc]

/-- GetAccount: SELECT balance FROM accounts WHERE account_id = $1,
ErrNotFound when no row matches. -/
def GetAccount (st : Database) (id : Int) : Except StoreError model.Account :=
  match st.find? (fun row => row.AccountID == id) with
  | some row => Except.ok { AccountID := id, Balance := row.Balance }
  | none => Except.error StoreError.notFound

/-- The WHERE predicate of the locking read:
account_id = $1 OR account_id = $2. -/
def rowMatches (id1 id2 : Int) (row : model.Account) : Bool :=
  row.AccountID == id1 || row.AccountID == id2

/-- The locking read issued by ExecuteTransfer:
SELECT account_id, balance FROM accounts
WHERE account_id = $1 OR account_id = $2 ORDER BY account_id FOR UPDATE.
The matching rows are returned (and their locks acquired) in ascending
account_id order. -/
def getForUpdate (st : Database) (id1 id2 : Int) : List model.Account :=
  List.insertionSort (fun a b => a.AccountID ≤ b.AccountID)
    (st.filter (rowMatches id1 id2))

/-- The loop state of the rows.Next() scan in ExecuteTransfer:
sourceAccount starts as the zero value of model.Account. -/
structure ScanState where
  sourceAccount : model.Account
  foundSource : Bool
  foundDest : Bool
deriving DecidableEq

/-- One iteration of the scan loop: a row whose id equals the source id
is recorded as sourceAccount, and each of the two found flags is set
when the corresponding id is seen. -/
def scanStep (req : model.TransactionRequest) (s : ScanState)
    (acc : model.Account) : ScanState :=
  let s1 :=
    if acc.AccountID == req.SourceAccountID then
      { s with sourceAccount := acc, foundSource := true }
    else s
  if acc.AccountID == req.DestinationAccountID then
    { s1 with foundDest := true }
  else s1

/-- The whole scan loop over the rows of the locking read. -/
def scanRows (req : model.TransactionRequest) (rows : List model.Account) :
    ScanState :=
  rows.foldl (scanStep req) ⟨⟨0, 0⟩, false, false⟩

/-- One UPDATE accounts SET balance = f(balance) WHERE account_id = $2:
every row whose id matches gets its balance rewritten. -/
def applyUpdate (id : Int) (f : Int → Int) (st : Database) : Database :=
  st.map (fun row =>
    if row.AccountID == id then { row with Balance := f row.Balance }
    else row)

/-- ExecuteTransfer: Begin; locking read of the two ids; scan; abort with
ErrNotFound unless both ids were found; abort with ErrInsufficientFunds
when the locked source balance is below the amount; debit the source;
credit the destination; Commit.  `failAt` injects a failure of one
database call (none = no failure).  The second component is the
database visible after the call: the deferred Rollback discards the
transaction-local writes on every path that does not reach a successful
Commit, so it is the input state on every error path. -/
def ExecuteTransfer (failAt : Option Step) (st : Database)
    (req : model.TransactionRequest) :
    Except StoreError Unit × Database :=
  if failAt = some Step.beginTx then
    (Except.error (StoreError.storeFailure Step.beginTx), st)
  else if failAt = some Step.lockQuery then
    (Except.error (StoreError.storeFailure Step.lockQuery), st)
  else if failAt = some Step.scanRow then
    (Except.error (StoreError.storeFailure Step.scanRow), st)
  else
    let scan := scanRows req
      (getForUpdate st req.SourceAccountID req.DestinationAccountID)
    if !(scan.foundSource && scan.foundDest) then
      (Except.error StoreError.notFound, st)
    else if scan.sourceAccount.Balance < req.Amount then
      (Except.error StoreError.insufficientFunds, st)
    else if failAt = some Step.debitExec then
      (Except.error (StoreError.storeFailure Step.debitExec), st)
    else
      let afterDebit :=
        applyUpdate req.SourceAccountID (fun b => b - req.Amount) st
      if failAt = some Step.creditExec then
        (Except.error (StoreError.storeFailure Step.creditExec), st)
      else
        let afterCredit :=
          applyUpdate req.DestinationAccountID (fun b => b + req.Amount)
            afterDebit
        if failAt = some Step.commitTx then
          (Except.error (StoreError.storeFailure Step.commitTx), st)
        else
          (Except.ok (), afterCredit)

/-- Balance of the account with the given id, none when absent. -/
def balanceOf (st : Database) (id : Int) : Option Int :=
  (st.find? (fun row => row.AccountID == id)).map model.Account.Balance

/-- Whether a row with the given id exists in the table. -/
def accountExists (st : Database) (id : Int) : Bool :=
  st.any (fun row => row.AccountID == id)

/-- Sum of all balances in the table. -/
def sumBalances (st : Database) : Int :=
  (st.map model.Account.Balance).sum

/-- Run a sequence of transfers (no injected failures); a failed transfer
leaves the database unchanged. -/
def runTransfers (st : Database) (reqs : List model.TransactionRequest) :
    Database :=
  reqs.foldl (fun s r =>
    match ExecuteTransfer none s r with
    | (Except.ok _, s1) => s1
    | (Except.error _, _) => s) st

end storage

namespace handler

/-- The HTTP statuses written by CreateTransactionHandler. -/
inductive HttpStatus where
  | ok200
  | badRequest400
  | notFound404
  | unprocessableEntity422
  | internalServerError500
deriving DecidableEq

/-- Numeric status code of each response. -/
def statusCode : HttpStatus → Nat
  | HttpStatus.ok200 => 200
  | HttpStatus.badRequest400 => 400
  | HttpStatus.notFound404 => 404
  | HttpStatus.unprocessableEntity422 => 422
  | HttpStatus.internalServerError500 => 500

/-- Outcome of one handler call: the status written, the database state
visible afterwards, and whether store.ExecuteTransfer was invoked. -/
structure HandlerResult where
  status : HttpStatus
  db : storage.Database
  engineInvoked : Bool
deriving DecidableEq

/-- CreateTransactionHandler, after a successfully decoded request body:
rejects source = destination with 400, rejects a non-positive amount
(decimal.IsPositive is amount > 0) with 400, and otherwise calls
store.ExecuteTransfer and maps its outcome to a status
(ErrInsufficientFunds to 422, ErrNotFound to 404, other errors to 500,
success to 200). -/
def CreateTransactionHandler (failAt : Option storage.Step)
    (st : storage.Database) (req : model.TransactionRequest) :
    HandlerResult :=
  if req.SourceAccountID == req.DestinationAccountID then
    ⟨HttpStatus.badRequest400, st, false⟩
  else if !(decide (0 < req.Amount)) then
    ⟨HttpStatus.badRequest400, st, false⟩
  else
    match storage.ExecuteTransfer failAt st req with
    | (Except.error storage.StoreError.insufficientFunds, db) =>
        ⟨HttpStatus.unprocessableEntity422, db, true⟩
    | (Except.error storage.StoreError.notFound, db) =>
        ⟨HttpStatus.notFound404, db, true⟩
    | (Except.error (storage.StoreError.storeFailure _), db) =>
        ⟨HttpStatus.internalServerError500, db, true⟩
    | (Except.ok _, db) =>
        ⟨HttpStatus.ok200, db, true⟩

end handler

namespace storage

theorem scanStep_foundSource (req : model.TransactionRequest)
    (s : ScanState) (a : model.Account) :
    (scanStep req s a).foundSource =
      (s.foundSource || (a.AccountID == req.SourceAccountID)) := by
  simp only [scanStep]
  split <;> split <;> simp_all

theorem scanStep_foundDest (req : model.TransactionRequest)
    (s : ScanState) (a : model.Account) :
    (scanStep req s a).foundDest =
      (s.foundDest || (a.AccountID == req.DestinationAccountID)) := by
  simp only [scanStep]
  split <;> split <;> simp_all

theorem scanStep_sourceAccount (req : model.TransactionRequest)
    (s : ScanState) (a : model.Account) :
    (scanStep req s a).sourceAccount =
      (if (a.AccountID == req.SourceAccountID) = true then a
       else s.sourceAccount) := by
  simp only [scanStep]
  split <;> split <;> simp_all

theorem foldl_scan_foundSource (req : model.TransactionRequest) :
    ∀ (rows : List model.Account) (s : ScanState),
      (rows.foldl (scanStep req) s).foundSource =
        (s.foundSource ||
          rows.any (fun r => r.AccountID == req.SourceAccountID)) := by
  intro rows
  induction rows with
  | nil => intro s; simp
  | cons a t ih =>
      intro s
      rw [List.foldl_cons, ih, scanStep_foundSource]
      simp [Bool.or_assoc]

theorem foldl_scan_foundDest (req : model.TransactionRequest) :
    ∀ (rows : List model.Account) (s : ScanState),
      (rows.foldl (scanStep req) s).foundDest =
        (s.foundDest ||
          rows.any (fun r => r.AccountID == req.DestinationAccountID)) := by
  intro rows
  induction rows with
  | nil => intro s; simp
  | cons a t ih =>
      intro s
      rw [List.foldl_cons, ih, scanStep_foundDest]
      simp [Bool.or_assoc]

theorem foldl_scan_sourceAccount (req : model.TransactionRequest) :
    ∀ (rows : List model.Account) (s : ScanState),
      (rows.foldl (scanStep req) s).sourceAccount =
        (rows.reverse.find?
          (fun r => r.AccountID == req.SourceAccountID)).getD
          s.sourceAccount := by
  intro rows
  induction rows with
  | nil => intro s; simp
  | cons a t ih =>
      intro s
      rw [List.foldl_cons, ih, scanStep_sourceAccount]
      rw [List.reverse_cons, List.find?_append]
      cases h : t.reverse.find? (fun r => r.AccountID == req.SourceAccountID) with
      | some x => simp [Option.or, h]
      | none =>
          cases hp : (a.AccountID == req.SourceAccountID) <;>
            simp [List.find?_cons, hp, Option.or]

theorem mem_getForUpdate {st : Database} {id1 id2 : Int}
    {r : model.Account} :
    r ∈ getForUpdate st id1 id2 ↔ (r ∈ st ∧ rowMatches id1 id2 r = true) := by
  unfold getForUpdate
  constructor
  · intro h
    exact List.mem_filter.mp ((List.perm_insertionSort _ _).mem_iff.mp h)
  · intro h
    exact (List.perm_insertionSort _ _).mem_iff.mpr (List.mem_filter.mpr h)

theorem any_getForUpdate {st : Database} {id1 id2 : Int}
    {p : model.Account → Bool}
    (hp : ∀ r, p r = true → rowMatches id1 id2 r = true) :
    (getForUpdate st id1 id2).any p = st.any p := by
  cases h : st.any p with
  | true =>
      rcases List.any_eq_true.mp h with ⟨x, hx, hpx⟩
      exact List.any_eq_true.mpr
        ⟨x, mem_getForUpdate.mpr ⟨hx, hp x hpx⟩, hpx⟩
  | false =>
      cases h2 : (getForUpdate st id1 id2).any p with
      | false => rfl
      | true =>
          rcases List.any_eq_true.mp h2 with ⟨x, hx, hpx⟩
          have hx2 := (mem_getForUpdate.mp hx).1
          have : st.any p = true := List.any_eq_true.mpr ⟨x, hx2, hpx⟩
          rw [h] at this
          exact this.symm

theorem find?_eq_some_of_unique {l : List model.Account}
    {p : model.Account → Bool} {r : model.Account}
    (hr : r ∈ l) (hp : p r = true)
    (huniq : ∀ x ∈ l, p x = true → x = r) :
    l.find? p = some r := by
  cases h : l.find? p with
  | none => exact absurd hp (List.find?_eq_none.mp h r hr)
  | some x =>
      have hx := List.mem_of_find?_eq_some h
      have hpx := List.find?_some h
      rw [huniq x hx hpx]

theorem uniqueIds_inj {st : Database} (huniq : uniqueIds st)
    {x y : model.Account} (hx : x ∈ st) (hy : y ∈ st)
    (hid : x.AccountID = y.AccountID) : x = y :=
  List.inj_on_of_nodup_map huniq hx hy hid


theorem AccountID_updateRow (aid : Int) (f : Int → Int) (row : model.Account) :
    (if (row.AccountID == aid) = true then
      { row with Balance := f row.Balance } else row).AccountID =
    row.AccountID := by
  split <;> rfl

theorem ids_applyUpdate (aid : Int) (f : Int → Int) (st : Database) :
    (applyUpdate aid f st).map model.Account.AccountID =
      st.map model.Account.AccountID := by
  unfold applyUpdate
  rw [List.map_map]
  apply List.map_congr_left
  intro x _
  exact AccountID_updateRow aid f x

theorem uniqueIds_applyUpdate (aid : Int) (f : Int → Int) (st : Database)
    (h : uniqueIds st) : uniqueIds (applyUpdate aid f st) := by
  unfold uniqueIds
  rw [ids_applyUpdate]
  exact h

theorem accountExists_applyUpdate (aid : Int) (f : Int → Int) (st : Database)
    (id2 : Int) :
    accountExists (applyUpdate aid f st) id2 = accountExists st id2 := by
  unfold accountExists applyUpdate
  rw [List.any_map]
  congr 1
  funext row
  simp only [Function.comp]
  rw [AccountID_updateRow]

theorem balanceOf_applyUpdate_same (aid : Int) (f : Int → Int)
    (st : Database) :
    balanceOf (applyUpdate aid f st) aid = (balanceOf st aid).map f := by
  unfold balanceOf applyUpdate
  rw [List.find?_map]
  have hpg : ((fun (row : model.Account) => row.AccountID == aid) ∘
      (fun (row : model.Account) => if (row.AccountID == aid) = true then
        { row with Balance := f row.Balance } else row)) =
      (fun (row : model.Account) => row.AccountID == aid) := by
    funext row
    simp only [Function.comp]
    rw [AccountID_updateRow]
  rw [hpg]
  cases h : st.find? (fun row => row.AccountID == aid) with
  | none => rfl
  | some r =>
      have hpr := List.find?_some h
      simp [Option.map, hpr]

theorem balanceOf_applyUpdate_other (aid : Int) (f : Int → Int)
    (st : Database) (id2 : Int) (hne : id2 ≠ aid) :
    balanceOf (applyUpdate aid f st) id2 = balanceOf st id2 := by
  unfold balanceOf applyUpdate
  rw [List.find?_map]
  have hpg : ((fun (row : model.Account) => row.AccountID == id2) ∘
      (fun (row : model.Account) => if (row.AccountID == aid) = true then
        { row with Balance := f row.Balance } else row)) =
      (fun (row : model.Account) => row.AccountID == id2) := by
    funext row
    simp only [Function.comp]
    rw [AccountID_updateRow]
  rw [hpg]
  cases h : st.find? (fun row => row.AccountID == id2) with
  | none => rfl
  | some r =>
      have hpr : r.AccountID = id2 := by simpa using List.find?_some h
      have hne2 : (r.AccountID == aid) = false := by
        simp [hpr]
        exact hne
      simp [Option.map, hne2]

theorem applyUpdate_of_not_exists (aid : Int) (f : Int → Int) :
    ∀ (st : Database), accountExists st aid = false →
      applyUpdate aid f st = st := by
  intro st
  induction st with
  | nil => intro _; rfl
  | cons r t ih =>
      intro h
      have hr : (r.AccountID == aid) = false := by
        cases hr : (r.AccountID == aid) with
        | false => rfl
        | true => simp [accountExists, List.any_cons, hr] at h
      have ht : accountExists t aid = false := by
        cases ht2 : t.any (fun row => row.AccountID == aid) with
        | false => exact ht2
        | true => simp [accountExists, List.any_cons, ht2] at h
      simp only [applyUpdate, List.map_cons, hr]
      rw [show (List.map (fun row => if (row.AccountID == aid) = true then
        { row with Balance := f row.Balance } else row) t) =
        applyUpdate aid f t from rfl, ih ht]
      simp

theorem applyUpdate_id (aid : Int) (f : Int → Int) (st : Database)
    (h : ∀ b, f b = b) : applyUpdate aid f st = st := by
  unfold applyUpdate
  have : ∀ x ∈ st, (if (x.AccountID == aid) = true then
      { x with Balance := f x.Balance } else x) = x := by
    intro x _
    split
    · rw [h]
    · rfl
  rw [List.map_congr_left this]
  simp

theorem applyUpdate_applyUpdate (aid : Int) (f g : Int → Int)
    (st : Database) :
    applyUpdate aid g (applyUpdate aid f st) =
      applyUpdate aid (fun b => g (f b)) st := by
  unfold applyUpdate
  rw [List.map_map]
  apply List.map_congr_left
  intro x _
  simp only [Function.comp]
  by_cases hx : (x.AccountID == aid) = true
  · simp [hx]
  · simp [hx]

theorem sumBalances_applyUpdate {aid b : Int} (f : Int → Int) :
    ∀ {st : Database}, uniqueIds st → balanceOf st aid = some b →
      sumBalances (applyUpdate aid f st) = sumBalances st - b + f b := by
  intro st
  induction st with
  | nil => intro _ hb; simp [balanceOf] at hb
  | cons r t ih =>
      intro huniq hb
      have hu := (List.nodup_cons.mp huniq)
      cases hr : (r.AccountID == aid) with
      | true =>
          have hid : r.AccountID = aid := by simpa using hr
          have hbr : b = r.Balance := by
            simp [balanceOf, List.find?_cons, hr] at hb
            exact hb.symm
          have hnt : accountExists t aid = false := by
            cases hat : t.any (fun row => row.AccountID == aid) with
            | false => exact hat
            | true =>
                rcases List.any_eq_true.mp hat with ⟨x, hx, hpx⟩
                have hxid : x.AccountID = aid := by simpa using hpx
                exact absurd (hid ▸ hxid ▸ List.mem_map_of_mem
                  model.Account.AccountID hx) hu.1
          simp only [applyUpdate, List.map_cons, hr, if_true]
          rw [show (List.map (fun row => if (row.AccountID == aid) = true then
            { row with Balance := f row.Balance } else row) t) =
            applyUpdate aid f t from rfl, applyUpdate_of_not_exists aid f t hnt]
          simp only [sumBalances, List.map_cons, List.sum_cons, hbr]
          ring
      | false =>
          have hbt : balanceOf t aid = some b := by
            simpa [balanceOf, List.find?_cons, hr] using hb
          simp only [applyUpdate, List.map_cons, hr]
          rw [show (List.map (fun row => if (row.AccountID == aid) = true then
            { row with Balance := f row.Balance } else row) t) =
            applyUpdate aid f t from rfl, show (if false = true then
            { r with Balance := f r.Balance } else r) = r from rfl]
          have := ih hu.2 hbt
          simp only [sumBalances, List.map_cons, List.sum_cons] at this ⊢
          rw [this]
          ring


theorem find?_some_pred {l : List model.Account}
    {q : model.Account → Bool} {r : model.Account}
    (h : l.find? q = some r) : q r = true :=
  List.find?_some h

theorem scanRows_foundSource (st : Database) (req : model.TransactionRequest) :
    (scanRows req
      (getForUpdate st req.SourceAccountID req.DestinationAccountID)).foundSource =
    accountExists st req.SourceAccountID := by
  unfold scanRows
  rw [foldl_scan_foundSource]
  simp only [Bool.false_or]
  exact any_getForUpdate (fun r hr => by simp [rowMatches, hr])

theorem scanRows_foundDest (st : Database) (req : model.TransactionRequest) :
    (scanRows req
      (getForUpdate st req.SourceAccountID req.DestinationAccountID)).foundDest =
    accountExists st req.DestinationAccountID := by
  unfold scanRows
  rw [foldl_scan_foundDest]
  simp only [Bool.false_or]
  exact any_getForUpdate (fun r hr => by simp [rowMatches, hr])

theorem scanRows_sourceAccount {st : Database} {req : model.TransactionRequest}
    {r : model.Account} (huniq : uniqueIds st)
    (hfind : st.find? (fun row => row.AccountID == req.SourceAccountID) =
      some r) :
    (scanRows req
      (getForUpdate st req.SourceAccountID
        req.DestinationAccountID)).sourceAccount = r := by
  unfold scanRows
  rw [foldl_scan_sourceAccount]
  have hrmem : r ∈ st := List.mem_of_find?_eq_some hfind
  have hpr : (r.AccountID == req.SourceAccountID) = true :=
    find?_some_pred hfind
  have hmem : r ∈ (getForUpdate st req.SourceAccountID
      req.DestinationAccountID).reverse := by
    rw [List.mem_reverse]
    exact mem_getForUpdate.mpr ⟨hrmem, by simp [rowMatches, hpr]⟩
  have huniq2 : ∀ x ∈ (getForUpdate st req.SourceAccountID
      req.DestinationAccountID).reverse,
      (x.AccountID == req.SourceAccountID) = true → x = r := by
    intro x hx hpx
    have hx2 := (mem_getForUpdate.mp (List.mem_reverse.mp hx)).1
    apply uniqueIds_inj huniq hx2 hrmem
    have e1 : x.AccountID = req.SourceAccountID := by simpa using hpx
    have e2 : r.AccountID = req.SourceAccountID := by simpa using hpr
    rw [e1, e2]
  rw [find?_eq_some_of_unique hmem hpr huniq2]
  rfl

theorem ExecuteTransfer_none (st : Database) (req : model.TransactionRequest) :
    ExecuteTransfer none st req =
      (let scan := scanRows req
        (getForUpdate st req.SourceAccountID req.DestinationAccountID)
       if !(scan.foundSource && scan.foundDest) then
         (Except.error StoreError.notFound, st)
       else if scan.sourceAccount.Balance < req.Amount then
         (Except.error StoreError.insufficientFunds, st)
       else
         (Except.ok (),
           applyUpdate req.DestinationAccountID (fun b => b + req.Amount)
             (applyUpdate req.SourceAccountID (fun b => b - req.Amount) st))) :=
  rfl

theorem ExecuteTransfer_none_notFound {st : Database}
    {req : model.TransactionRequest}
    (h : accountExists st req.SourceAccountID = false ∨
      accountExists st req.DestinationAccountID = false) :
    ExecuteTransfer none st req = (Except.error StoreError.notFound, st) := by
  rw [ExecuteTransfer_none]
  rcases h with h | h <;>
    simp [scanRows_foundSource, scanRows_foundDest, h]

theorem ExecuteTransfer_none_eq {st : Database}
    {req : model.TransactionRequest} {r : model.Account}
    (huniq : uniqueIds st)
    (hfind : st.find? (fun row => row.AccountID == req.SourceAccountID) =
      some r)
    (hdst : accountExists st req.DestinationAccountID = true) :
    ExecuteTransfer none st req =
      (if r.Balance < req.Amount then
        (Except.error StoreError.insufficientFunds, st)
       else
        (Except.ok (),
          applyUpdate req.DestinationAccountID (fun b => b + req.Amount)
            (applyUpdate req.SourceAccountID (fun b => b - req.Amount) st))) := by
  have hsrc : accountExists st req.SourceAccountID = true :=
    List.any_eq_true.mpr
      ⟨r, List.mem_of_find?_eq_some hfind, find?_some_pred hfind⟩
  rw [ExecuteTransfer_none]
  simp only [scanRows_foundSource, scanRows_foundDest, hsrc, hdst,
    Bool.and_self, Bool.not_true, Bool.false_eq_true, if_false,
    scanRows_sourceAccount huniq hfind]

theorem exists_of_ExecuteTransfer_ok {st : Database}
    {req : model.TransactionRequest} {st1 : Database}
    (hok : ExecuteTransfer none st req = (Except.ok (), st1)) :
    accountExists st req.SourceAccountID = true ∧
      accountExists st req.DestinationAccountID = true := by
  cases hs : accountExists st req.SourceAccountID with
  | false =>
      rw [ExecuteTransfer_none_notFound (Or.inl hs)] at hok
      simp at hok
  | true =>
      cases hd : accountExists st req.DestinationAccountID with
      | false =>
          rw [ExecuteTransfer_none_notFound (Or.inr hd)] at hok
          simp at hok
      | true => exact ⟨rfl, rfl⟩

theorem find?_of_balanceOf {st : Database} {aid b : Int}
    (hb : balanceOf st aid = some b) :
    ∃ r : model.Account,
      st.find? (fun row => row.AccountID == aid) = some r ∧ r.Balance = b := by
  rcases Option.map_eq_some'.mp hb with ⟨r, hr, hrb⟩
  exact ⟨r, hr, hrb⟩

theorem accountExists_of_balanceOf {st : Database} {aid b : Int}
    (hb : balanceOf st aid = some b) : accountExists st aid = true := by
  rcases find?_of_balanceOf hb with ⟨r, hr, _⟩
  exact List.any_eq_true.mpr
    ⟨r, List.mem_of_find?_eq_some hr, find?_some_pred hr⟩


/-- C2: every ExecuteTransfer call that fails for any reason (account
missing, insufficient funds, or a database-level failure or cancellation
at any step before commit) leaves every account balance unchanged: the
deferred rollback of the transaction discards all partial writes, so no
debit without its matching credit is ever observable. -/
theorem C2_failure_rollback (failAt : Option Step) (st db : Database)
    (req : model.TransactionRequest) (e : StoreError)
    (h : ExecuteTransfer failAt st req = (Except.error e, db)) :
    db = st := by
  simp only [ExecuteTransfer] at h
  repeat' split at h
  all_goals first
    | (injection h with h1 h2; exact h2.symm)
    | (injection h with h1 h2; cases h1)

/-- C4: with no database-step failure, ExecuteTransfer reports
ErrNotFound exactly when the source account, the destination account,
or both are absent (a single error value that does not distinguish
which side is missing), and in that case the database is unchanged. -/
theorem C4_notFound_iff_missing (st : Database)
    (req : model.TransactionRequest) :
    ((ExecuteTransfer none st req).1 = Except.error StoreError.notFound ↔
      (accountExists st req.SourceAccountID = false ∨
        accountExists st req.DestinationAccountID = false)) ∧
    ((accountExists st req.SourceAccountID = false ∨
        accountExists st req.DestinationAccountID = false) →
      ExecuteTransfer none st req = (Except.error StoreError.notFound, st)) := by
  constructor
  · constructor
    · intro h
      cases hs : accountExists st req.SourceAccountID with
      | false => exact Or.inl rfl
      | true =>
          cases hd : accountExists st req.DestinationAccountID with
          | false => exact Or.inr rfl
          | true =>
              exfalso
              rw [ExecuteTransfer_none] at h
              simp only [scanRows_foundSource, scanRows_foundDest, hs, hd,
                Bool.and_self, Bool.not_true, Bool.false_eq_true,
                if_false] at h
              split at h <;> simp at h
    · intro h
      rw [ExecuteTransfer_none_notFound h]
  · intro h
    exact ExecuteTransfer_none_notFound h

/-- C5: the locking read returns exactly the rows whose id is one of the
two requested ids, sorted in ascending id order (strictly ascending
under the primary-key invariant), and the returned sequence is the same
whichever of the two ids is the source and which the destination, so
any two transfers over an overlapping pair acquire locks in a single
global order. -/
theorem C5_lock_order (st : Database) (a b : Int) :
    getForUpdate st a b = getForUpdate st b a ∧
    List.Sorted (fun x y : model.Account => x.AccountID ≤ y.AccountID)
      (getForUpdate st a b) ∧
    (∀ r : model.Account, r ∈ getForUpdate st a b ↔
      (r ∈ st ∧ (r.AccountID = a ∨ r.AccountID = b))) ∧
    (uniqueIds st →
      List.Sorted (fun x y : model.Account => x.AccountID < y.AccountID)
        (getForUpdate st a b)) := by
  haveI htot : IsTotal model.Account
      (fun x y => x.AccountID ≤ y.AccountID) :=
    ⟨fun x y => Int.le_total x.AccountID y.AccountID⟩
  haveI htrans : IsTrans model.Account
      (fun x y => x.AccountID ≤ y.AccountID) :=
    ⟨fun _ _ _ hxy hyz => le_trans hxy hyz⟩
  refine ⟨?_, ?_, ?_, ?_⟩
  · unfold getForUpdate
    congr 1
    apply List.filter_congr
    intro x _
    unfold rowMatches
    exact Bool.or_comm _ _
  · exact List.sorted_insertionSort _ _
  · intro r
    rw [mem_getForUpdate]
    simp [rowMatches]
  · intro huniq
    have hsorted := List.sorted_insertionSort
      (fun x y : model.Account => x.AccountID ≤ y.AccountID)
      (st.filter (rowMatches a b))
    have hperm : (getForUpdate st a b).Perm (st.filter (rowMatches a b)) :=
      List.perm_insertionSort _ _
    have hnodup : ((getForUpdate st a b).map
        model.Account.AccountID).Nodup := by
      refine ((hperm.map model.Account.AccountID).nodup_iff).mpr ?_
      exact List.Nodup.sublist
        ((List.filter_sublist st).map model.Account.AccountID) huniq
    have hne : List.Pairwise
        (fun x y : model.Account => x.AccountID ≠ y.AccountID)
        (getForUpdate st a b) :=
      List.pairwise_map.mp hnodup
    exact (hsorted.and hne).imp (fun h => lt_of_le_of_ne h.1 h.2)

/-- C6: account creation is idempotent: creating an account whose id
already exists performs no mutation and reports success whatever
balance is passed, so the balance set by the first create is never
changed by a later create with the same id. -/
theorem C6_create_idempotent (st : Database) (a b : model.Account)
    (hid : b.AccountID = a.AccountID) :
    (∀ acc : model.Account, accountExists st acc.AccountID = true →
      CreateAccount st acc = st) ∧
    CreateAccount (CreateAccount st a) b = CreateAccount st a ∧
    balanceOf (CreateAccount (CreateAccount st a) b) a.AccountID =
      balanceOf (CreateAccount st a) a.AccountID := by
  have hdup : ∀ (st2 : Database) (acc : model.Account),
      accountExists st2 acc.AccountID = true → CreateAccount st2 acc = st2 := by
    intro st2 acc h
    unfold CreateAccount
    rw [if_pos]
    exact h
  have hex : accountExists (CreateAccount st a) a.AccountID = true := by
    unfold CreateAccount
    split
    · assumption
    · simp [accountExists]
  have hsecond : CreateAccount (CreateAccount st a) b = CreateAccount st a := by
    have : accountExists (CreateAccount st a) b.AccountID = true := by
      rw [hid]; exact hex
    exact hdup _ b this
  exact ⟨fun acc h => hdup st acc h, hsecond, by rw [hsecond]⟩


theorem sumBalances_ExecuteTransfer_ok {st st1 : Database}
    {req : model.TransactionRequest} (huniq : uniqueIds st)
    (hok : ExecuteTransfer none st req = (Except.ok (), st1)) :
    sumBalances st1 = sumBalances st ∧ uniqueIds st1 := by
  obtain ⟨hs, hd⟩ := exists_of_ExecuteTransfer_ok hok
  obtain ⟨r, hfind⟩ := Option.isSome_iff_exists.mp
    (List.find?_isSome.mpr (List.any_eq_true.mp hs))
  rw [ExecuteTransfer_none_eq huniq hfind hd] at hok
  split at hok
  · simp at hok
  · have hst1 : st1 =
        applyUpdate req.DestinationAccountID (fun x => x + req.Amount)
          (applyUpdate req.SourceAccountID (fun x => x - req.Amount) st) := by
      injection hok with h1 h2
      exact h2.symm
    subst hst1
    have hbal : balanceOf st req.SourceAccountID = some r.Balance := by
      unfold balanceOf
      rw [hfind]
      rfl
    have huniq1 : uniqueIds
        (applyUpdate req.SourceAccountID (fun x => x - req.Amount) st) :=
      uniqueIds_applyUpdate _ _ _ huniq
    constructor
    · by_cases hc : req.DestinationAccountID = req.SourceAccountID
      · have hbal1 : balanceOf
            (applyUpdate req.SourceAccountID (fun x => x - req.Amount) st)
            req.DestinationAccountID = some (r.Balance - req.Amount) := by
          rw [hc, balanceOf_applyUpdate_same, hbal]
          rfl
        rw [sumBalances_applyUpdate _ huniq1 hbal1,
          sumBalances_applyUpdate _ huniq hbal]
        ring
      · obtain ⟨rd, hfindd⟩ := Option.isSome_iff_exists.mp
          (List.find?_isSome.mpr (List.any_eq_true.mp hd))
        have hbald : balanceOf st req.DestinationAccountID =
            some rd.Balance := by
          unfold balanceOf
          rw [hfindd]
          rfl
        have hbal1 : balanceOf
            (applyUpdate req.SourceAccountID (fun x => x - req.Amount) st)
            req.DestinationAccountID = some rd.Balance := by
          rw [balanceOf_applyUpdate_other _ _ _ _ hc, hbald]
        rw [sumBalances_applyUpdate _ huniq1 hbal1,
          sumBalances_applyUpdate _ huniq hbal]
        ring
    · exact uniqueIds_applyUpdate _ _ _ huniq1

theorem runTransfers_sum (reqs : List model.TransactionRequest) :
    ∀ (st : Database), uniqueIds st →
      sumBalances (runTransfers st reqs) = sumBalances st ∧
        uniqueIds (runTransfers st reqs) := by
  induction reqs with
  | nil => intro st h; exact ⟨rfl, h⟩
  | cons r rs ih =>
      intro st h
      have hrw : runTransfers st (r :: rs) =
          runTransfers
            (match ExecuteTransfer none st r with
              | (Except.ok _, s1) => s1
              | (Except.error _, _) => st) rs := rfl
      rw [hrw]
      cases hex : ExecuteTransfer none st r with
      | mk res st2 =>
          cases res with
          | ok u =>
              cases u
              have hstep := sumBalances_ExecuteTransfer_ok h hex
              exact ⟨(ih st2 hstep.2).1.trans hstep.1, (ih st2 hstep.2).2⟩
          | error e =>
              exact ih st h

/-- C1: a successful transfer between two distinct accounts debits the
source by exactly the amount and credits the destination by exactly the
same amount, so the total of all balances is conserved by every
successful transfer and, by iteration, by any sequence of transfers. -/
theorem C1_transfer_conservation (st st1 : Database)
    (req : model.TransactionRequest)
    (huniq : uniqueIds st)
    (hne : req.SourceAccountID ≠ req.DestinationAccountID)
    (hok : ExecuteTransfer none st req = (Except.ok (), st1)) :
    balanceOf st1 req.SourceAccountID =
      (balanceOf st req.SourceAccountID).map (fun x => x - req.Amount) ∧
    balanceOf st1 req.DestinationAccountID =
      (balanceOf st req.DestinationAccountID).map
        (fun x => x + req.Amount) ∧
    sumBalances st1 = sumBalances st ∧
    (∀ reqs : List model.TransactionRequest,
      sumBalances (runTransfers st reqs) = sumBalances st) := by
  obtain ⟨hs, hd⟩ := exists_of_ExecuteTransfer_ok hok
  obtain ⟨r, hfind⟩ := Option.isSome_iff_exists.mp
    (List.find?_isSome.mpr (List.any_eq_true.mp hs))
  have hsum := sumBalances_ExecuteTransfer_ok huniq hok
  rw [ExecuteTransfer_none_eq huniq hfind hd] at hok
  split at hok
  · simp at hok
  · have hst1 : st1 =
        applyUpdate req.DestinationAccountID (fun x => x + req.Amount)
          (applyUpdate req.SourceAccountID (fun x => x - req.Amount) st) := by
      injection hok with h1 h2
      exact h2.symm
    subst hst1
    refine ⟨?_, ?_, hsum.1, fun reqs => (runTransfers_sum reqs st huniq).1⟩
    · rw [balanceOf_applyUpdate_other _ _ _ _ hne,
        balanceOf_applyUpdate_same]
    · rw [balanceOf_applyUpdate_same,
        balanceOf_applyUpdate_other _ _ _ _ (Ne.symm hne)]

/-- C7: a transfer from an account to itself of any amount at most the
current balance reports success and leaves the balance (indeed the
whole table) exactly unchanged: the sequential debit and credit on the
same row cancel. -/
theorem C7_self_transfer_noop (st : Database)
    (req : model.TransactionRequest) (bal : Int)
    (huniq : uniqueIds st)
    (hb : balanceOf st req.SourceAccountID = some bal)
    (hself : req.DestinationAccountID = req.SourceAccountID)
    (hamt : req.Amount ≤ bal) :
    ExecuteTransfer none st req = (Except.ok (), st) := by
  rcases find?_of_balanceOf hb with ⟨r, hfind, hrb⟩
  have hdst : accountExists st req.DestinationAccountID = true := by
    rw [hself]
    exact accountExists_of_balanceOf hb
  rw [ExecuteTransfer_none_eq huniq hfind hdst]
  rw [if_neg (by rw [hrb]; exact not_lt.mpr hamt)]
  rw [hself, applyUpdate_applyUpdate]
  rw [applyUpdate_id _ _ _ (fun x => by ring)]


/-- C3: between two existing accounts and with no database-step failure,
ExecuteTransfer aborts with ErrInsufficientFunds exactly when the source
balance captured under the row lock is strictly below the amount;
transferring exactly the full balance succeeds leaving the source at
zero, and transferring the balance plus one smallest representable unit
(0.00001, i.e. 1 in our integer scale) fails with ErrInsufficientFunds. -/
theorem C3_insufficient_funds_boundary (st : Database)
    (req : model.TransactionRequest) (bal : Int)
    (huniq : uniqueIds st)
    (hb : balanceOf st req.SourceAccountID = some bal)
    (hdst : accountExists st req.DestinationAccountID = true) :
    ((ExecuteTransfer none st req).1 =
        Except.error StoreError.insufficientFunds ↔ bal < req.Amount) ∧
    (req.Amount = bal → req.SourceAccountID ≠ req.DestinationAccountID →
      (ExecuteTransfer none st req).1 = Except.ok () ∧
      balanceOf (ExecuteTransfer none st req).2 req.SourceAccountID =
        some 0) ∧
    (req.Amount = bal + 1 →
      (ExecuteTransfer none st req).1 =
        Except.error StoreError.insufficientFunds) := by
  rcases find?_of_balanceOf hb with ⟨r, hfind, hrb⟩
  rw [ExecuteTransfer_none_eq huniq hfind hdst, hrb]
  by_cases hlt : bal < req.Amount
  · rw [if_pos hlt]
    refine ⟨by simp [hlt], ?_, ?_⟩
    · intro hEq _
      exact absurd (hEq ▸ hlt) (lt_irrefl bal)
    · intro _
      rfl
  · rw [if_neg hlt]
    refine ⟨by simp [hlt], ?_, ?_⟩
    · intro hEq hne
      refine ⟨rfl, ?_⟩
      rw [show (Except.ok (),
          applyUpdate req.DestinationAccountID (fun x => x + req.Amount)
            (applyUpdate req.SourceAccountID (fun x => x - req.Amount)
              st)).2 =
        applyUpdate req.DestinationAccountID (fun x => x + req.Amount)
          (applyUpdate req.SourceAccountID (fun x => x - req.Amount) st)
        from rfl]
      rw [balanceOf_applyUpdate_other _ _ _ _ hne,
        balanceOf_applyUpdate_same, hb, hEq]
      simp
    · intro hEq
      exact absurd (by rw [hEq]; exact lt_add_one bal) hlt

/-- C8 counterexample: with an existing source account of balance
-0.00001 and an existing destination account, a transfer of amount
exactly zero does not succeed: the code compares the source balance
against the amount and aborts with ErrInsufficientFunds because the
negative balance is strictly below zero. -/
theorem C8_counterexample :
    ExecuteTransfer none
      ([⟨1, -1⟩, ⟨2, 500000⟩] : Database) ⟨1, 2, 0⟩ =
      (Except.error StoreError.insufficientFunds,
        ([⟨1, -1⟩, ⟨2, 500000⟩] : Database)) ∧
    (ExecuteTransfer none
      ([⟨1, -1⟩, ⟨2, 500000⟩] : Database) ⟨1, 2, 0⟩).1 ≠
      Except.ok () := by
  decide

/-- C8 (amended): for every pair of existing accounts whose source
balance is not negative, a transfer of amount exactly zero reports
success and is a no-op: the whole table, in particular both balances,
is unchanged.  (When the source balance is negative the zero-amount
transfer instead fails with ErrInsufficientFunds, since
balance < 0 = amount.) -/
theorem C8_zero_transfer_noop (st : Database)
    (req : model.TransactionRequest) (bal : Int)
    (huniq : uniqueIds st)
    (hb : balanceOf st req.SourceAccountID = some bal)
    (h0 : 0 ≤ bal)
    (hdst : accountExists st req.DestinationAccountID = true)
    (hamt : req.Amount = 0) :
    ExecuteTransfer none st req = (Except.ok (), st) := by
  rcases find?_of_balanceOf hb with ⟨r, hfind, hrb⟩
  rw [ExecuteTransfer_none_eq huniq hfind hdst, hamt]
  rw [if_neg (by rw [hrb]; exact not_lt.mpr h0)]
  rw [applyUpdate_id _ _ _ (fun x => by ring),
    applyUpdate_id _ _ _ (fun x => by ring)]

/-- C9 counterexample: a strictly negative transfer amount does not
always execute as a successful reverse transfer: with source balance
-10.00000 and amount -5.00000 the comparison balance < amount holds, so
the code aborts with ErrInsufficientFunds and no balance changes. -/
theorem C9_counterexample :
    ExecuteTransfer none
      ([⟨1, -1000000⟩, ⟨2, 0⟩] : Database) ⟨1, 2, -500000⟩ =
      (Except.error StoreError.insufficientFunds,
        ([⟨1, -1000000⟩, ⟨2, 0⟩] : Database)) ∧
    (ExecuteTransfer none
      ([⟨1, -1000000⟩, ⟨2, 0⟩] : Database) ⟨1, 2, -500000⟩).1 ≠
      Except.ok () := by
  decide

/-- C9 (amended): for every pair of distinct existing accounts, a
transfer of a strictly negative amount that is not below the source
balance (in particular whenever the source balance is non-negative)
reports success and executes as a reverse transfer: the source balance
increases by the absolute value of the amount and the destination
balance decreases by it, because the engine does not independently
validate the sign of the amount. -/
theorem C9_negative_amount_reverse (st : Database)
    (req : model.TransactionRequest) (bal : Int)
    (huniq : uniqueIds st)
    (hb : balanceOf st req.SourceAccountID = some bal)
    (hdst : accountExists st req.DestinationAccountID = true)
    (hne : req.SourceAccountID ≠ req.DestinationAccountID)
    (hneg : req.Amount < 0)
    (hsuff : req.Amount ≤ bal) :
    (ExecuteTransfer none st req).1 = Except.ok () ∧
    balanceOf (ExecuteTransfer none st req).2 req.SourceAccountID =
      some (bal + |req.Amount|) ∧
    balanceOf (ExecuteTransfer none st req).2 req.DestinationAccountID =
      (balanceOf st req.DestinationAccountID).map
        (fun x => x - |req.Amount|) := by
  rcases find?_of_balanceOf hb with ⟨r, hfind, hrb⟩
  rw [ExecuteTransfer_none_eq huniq hfind hdst]
  rw [if_neg (by rw [hrb]; exact not_lt.mpr hsuff)]
  refine ⟨rfl, ?_, ?_⟩
  · rw [show (Except.ok (),
        applyUpdate req.DestinationAccountID (fun x => x + req.Amount)
          (applyUpdate req.SourceAccountID (fun x => x - req.Amount)
            st)).2 =
      applyUpdate req.DestinationAccountID (fun x => x + req.Amount)
        (applyUpdate req.SourceAccountID (fun x => x - req.Amount) st)
      from rfl]
    rw [balanceOf_applyUpdate_other _ _ _ _ hne,
      balanceOf_applyUpdate_same, hb]
    have : bal - req.Amount = bal + |req.Amount| := by
      rw [abs_of_neg hneg]
      ring
    simp [this]
  · rw [show (Except.ok (),
        applyUpdate req.DestinationAccountID (fun x => x + req.Amount)
          (applyUpdate req.SourceAccountID (fun x => x - req.Amount)
            st)).2 =
      applyUpdate req.DestinationAccountID (fun x => x + req.Amount)
        (applyUpdate req.SourceAccountID (fun x => x - req.Amount) st)
      from rfl]
    rw [balanceOf_applyUpdate_same,
      balanceOf_applyUpdate_other _ _ _ _ (Ne.symm hne)]
    congr 1
    funext x
    rw [abs_of_neg hneg]
    ring


end storage

namespace handler

/-- C10: at the HTTP interface, a transfer request whose source equals
its destination, or whose amount is not strictly positive, is answered
with 400 Bad Request before the store is touched: ExecuteTransfer is
not invoked and the database is unchanged, whatever failure behaviour
the store would have had. -/
theorem C10_handler_rejects_before_engine
    (failAt : Option storage.Step) (st : storage.Database)
    (req : model.TransactionRequest)
    (h : req.SourceAccountID = req.DestinationAccountID ∨
      req.Amount ≤ 0) :
    CreateTransactionHandler failAt st req =
      ⟨HttpStatus.badRequest400, st, false⟩ ∧
    statusCode (CreateTransactionHandler failAt st req).status = 400 := by
  have main : CreateTransactionHandler failAt st req =
      ⟨HttpStatus.badRequest400, st, false⟩ := by
    rcases h with h | h
    · simp [CreateTransactionHandler, h]
    · by_cases he : req.SourceAccountID = req.DestinationAccountID
      · simp [CreateTransactionHandler, he]
      · have hnp : ¬(0 < req.Amount) := not_lt.mpr h
        simp [CreateTransactionHandler, he, hnp]
  exact ⟨main, by rw [main]; rfl⟩

end handler


theorem C1_transfer_conservation_witness :
    storage.uniqueIds
      ([⟨1, 100000000⟩, ⟨2, 50000000⟩] : storage.Database) ∧
    (1 : Int) ≠ 2 ∧
    storage.ExecuteTransfer none [⟨1, 100000000⟩, ⟨2, 50000000⟩]
      ⟨1, 2, 25025000⟩ =
      (Except.ok (), [⟨1, 74975000⟩, ⟨2, 75025000⟩]) ∧
    storage.balanceOf [⟨1, 74975000⟩, ⟨2, 75025000⟩] 1 =
      (storage.balanceOf [⟨1, 100000000⟩, ⟨2, 50000000⟩] 1).map
        (fun x => x - 25025000) ∧
    storage.balanceOf [⟨1, 74975000⟩, ⟨2, 75025000⟩] 2 =
      (storage.balanceOf [⟨1, 100000000⟩, ⟨2, 50000000⟩] 2).map
        (fun x => x + 25025000) ∧
    storage.sumBalances [⟨1, 74975000⟩, ⟨2, 75025000⟩] =
      storage.sumBalances [⟨1, 100000000⟩, ⟨2, 50000000⟩] := by
  have h := storage.C1_transfer_conservation
    [⟨1, 100000000⟩, ⟨2, 50000000⟩] [⟨1, 74975000⟩, ⟨2, 75025000⟩]
    ⟨1, 2, 25025000⟩ (by decide) (by decide) (by decide)
  exact ⟨by decide, by decide, by decide, h.1, h.2.1, h.2.2.1⟩

theorem C2_failure_rollback_witness :
    storage.ExecuteTransfer (some storage.Step.commitTx)
      [⟨1, 100000000⟩, ⟨2, 50000000⟩] ⟨1, 2, 25025000⟩ =
      (Except.error (storage.StoreError.storeFailure storage.Step.commitTx),
        [⟨1, 100000000⟩, ⟨2, 50000000⟩]) ∧
    ([⟨1, 100000000⟩, ⟨2, 50000000⟩] : storage.Database) =
      [⟨1, 100000000⟩, ⟨2, 50000000⟩] :=
  ⟨by decide,
    storage.C2_failure_rollback (some storage.Step.commitTx)
      [⟨1, 100000000⟩, ⟨2, 50000000⟩] [⟨1, 100000000⟩, ⟨2, 50000000⟩]
      ⟨1, 2, 25025000⟩
      (storage.StoreError.storeFailure storage.Step.commitTx) (by decide)⟩

theorem C3_insufficient_funds_boundary_witness :
    storage.uniqueIds ([⟨1, 100000⟩, ⟨2, 0⟩] : storage.Database) ∧
    storage.balanceOf [⟨1, 100000⟩, ⟨2, 0⟩] 1 = some 100000 ∧
    storage.accountExists [⟨1, 100000⟩, ⟨2, 0⟩] 2 = true ∧
    ((storage.ExecuteTransfer none [⟨1, 100000⟩, ⟨2, 0⟩]
        ⟨1, 2, 100000⟩).1 = Except.ok () ∧
      storage.balanceOf
        (storage.ExecuteTransfer none [⟨1, 100000⟩, ⟨2, 0⟩]
          ⟨1, 2, 100000⟩).2 1 = some 0) := by
  have h := storage.C3_insufficient_funds_boundary
    [⟨1, 100000⟩, ⟨2, 0⟩] ⟨1, 2, 100000⟩ 100000
    (by decide) (by decide) (by decide)
  exact ⟨by decide, by decide, by decide, h.2.1 rfl (by decide)⟩

theorem C4_notFound_iff_missing_witness :
    storage.ExecuteTransfer none [⟨2, 50000000⟩] ⟨999, 2, 100⟩ =
      (Except.error storage.StoreError.notFound, [⟨2, 50000000⟩]) :=
  (storage.C4_notFound_iff_missing [⟨2, 50000000⟩] ⟨999, 2, 100⟩).2
    (Or.inl (by decide))

theorem C5_lock_order_witness :
    storage.getForUpdate [⟨2, 5⟩, ⟨1, 7⟩, ⟨3, 9⟩] 1 2 =
      storage.getForUpdate [⟨2, 5⟩, ⟨1, 7⟩, ⟨3, 9⟩] 2 1 ∧
    List.Sorted (fun x y : model.Account => x.AccountID ≤ y.AccountID)
      (storage.getForUpdate [⟨2, 5⟩, ⟨1, 7⟩, ⟨3, 9⟩] 1 2) ∧
    List.Sorted (fun x y : model.Account => x.AccountID < y.AccountID)
      (storage.getForUpdate [⟨2, 5⟩, ⟨1, 7⟩, ⟨3, 9⟩] 1 2) := by
  have h := storage.C5_lock_order [⟨2, 5⟩, ⟨1, 7⟩, ⟨3, 9⟩] 1 2
  exact ⟨h.1, h.2.1, h.2.2.2 (by decide)⟩

theorem C6_create_idempotent_witness :
    storage.CreateAccount
      (storage.CreateAccount [] ⟨1, 100000000⟩) ⟨1, 99⟩ =
      storage.CreateAccount [] ⟨1, 100000000⟩ ∧
    storage.balanceOf
      (storage.CreateAccount
        (storage.CreateAccount [] ⟨1, 100000000⟩) ⟨1, 99⟩) 1 =
      storage.balanceOf (storage.CreateAccount [] ⟨1, 100000000⟩) 1 := by
  have h := storage.C6_create_idempotent [] ⟨1, 100000000⟩ ⟨1, 99⟩ rfl
  exact ⟨h.2.1, h.2.2⟩

theorem C7_self_transfer_noop_witness :
    storage.uniqueIds ([⟨1, 100000000⟩] : storage.Database) ∧
    storage.balanceOf [⟨1, 100000000⟩] 1 = some 100000000 ∧
    (300 : Int) ≤ 100000000 ∧
    storage.ExecuteTransfer none [⟨1, 100000000⟩] ⟨1, 1, 300⟩ =
      (Except.ok (), [⟨1, 100000000⟩]) :=
  ⟨by decide, by decide, by decide,
    storage.C7_self_transfer_noop [⟨1, 100000000⟩] ⟨1, 1, 300⟩
      100000000 (by decide) (by decide) rfl (by decide)⟩

theorem C8_zero_transfer_noop_witness :
    storage.uniqueIds
      ([⟨1, 100000000⟩, ⟨2, 50000000⟩] : storage.Database) ∧
    storage.balanceOf [⟨1, 100000000⟩, ⟨2, 50000000⟩] 1 =
      some 100000000 ∧
    (0 : Int) ≤ 100000000 ∧
    storage.accountExists [⟨1, 100000000⟩, ⟨2, 50000000⟩] 2 = true ∧
    storage.ExecuteTransfer none [⟨1, 100000000⟩, ⟨2, 50000000⟩]
      ⟨1, 2, 0⟩ =
      (Except.ok (), [⟨1, 100000000⟩, ⟨2, 50000000⟩]) :=
  ⟨by decide, by decide, by decide, by decide,
    storage.C8_zero_transfer_noop [⟨1, 100000000⟩, ⟨2, 50000000⟩]
      ⟨1, 2, 0⟩ 100000000 (by decide) (by decide) (by decide)
      (by decide) rfl⟩

theorem C9_negative_amount_reverse_witness :
    storage.uniqueIds
      ([⟨1, 100000000⟩, ⟨2, 50000000⟩] : storage.Database) ∧
    storage.balanceOf [⟨1, 100000000⟩, ⟨2, 50000000⟩] 1 =
      some 100000000 ∧
    (-500000 : Int) < 0 ∧
    ((storage.ExecuteTransfer none [⟨1, 100000000⟩, ⟨2, 50000000⟩]
        ⟨1, 2, -500000⟩).1 = Except.ok () ∧
      storage.balanceOf
        (storage.ExecuteTransfer none [⟨1, 100000000⟩, ⟨2, 50000000⟩]
          ⟨1, 2, -500000⟩).2 1 = some (100000000 + |(-500000 : Int)|) ∧
      storage.balanceOf
        (storage.ExecuteTransfer none [⟨1, 100000000⟩, ⟨2, 50000000⟩]
          ⟨1, 2, -500000⟩).2 2 =
        (storage.balanceOf [⟨1, 100000000⟩, ⟨2, 50000000⟩] 2).map
          (fun x => x - |(-500000 : Int)|)) := by
  have h := storage.C9_negative_amount_reverse
    [⟨1, 100000000⟩, ⟨2, 50000000⟩] ⟨1, 2, -500000⟩ 100000000
    (by decide) (by decide) (by decide) (by decide) (by decide)
    (by decide)
  exact ⟨by decide, by decide, by decide, h⟩

theorem C10_handler_rejects_before_engine_witness :
    handler.CreateTransactionHandler none [] ⟨7, 7, 100⟩ =
      ⟨handler.HttpStatus.badRequest400, [], false⟩ ∧
    handler.statusCode
      (handler.CreateTransactionHandler none [] ⟨7, 7, 100⟩).status =
      400 :=
  handler.C10_handler_rejects_before_engine none [] ⟨7, 7, 100⟩
    (Or.inl rfl)

